import Mathlib

/-!
# Media retrieval controller (`server/subsonic/media_retrieval.go`)

A shallow embedding of the three request handlers `GetAvatar`, `GetCoverArt`
and `GetLyrics`, of `getPlaceHolderAvatar`, and of the lyrics classifier
`isSynced` with its pattern `TIMESTAMP_REGEX`.

* Go `string` values are Lean `String`s; the regular-expression engine works on
  the list of their characters.  Go's `regexp` decodes its input rune by rune,
  and the pattern only mentions ASCII runes, so every other rune (also the
  replacement rune an invalid byte decodes to) behaves as one opaque symbol
  that matches nothing and is copied through unchanged.
* A handler is a function from its surroundings (`Env`: the configuration flag
  and the collaborators), the request and the state before the call (`World`:
  the response writer and the trace of calls made so far) to its Go result
  pair and the state after the call.
-/

namespace MediaRetrieval

/-! ## Regular expressions (package `regexp`) -/

/-- Abstract syntax of the patterns used by this file: a literal rune, a
character class given by one range, concatenation, the greedy `?`, the greedy
counted repetition `{lo,hi}` and a capturing group. -/
inductive Re where
  | lit (c : Char)
  | cls (lo hi : Char)
  | cat (a b : Re)
  | quest (a : Re)
  | rep (a : Re) (lo hi : Nat)
  | cap (a : Re)

/-- Greedy optional repetition of a matcher `f`: at most `k` copies, more
copies preferred over fewer.  The result lists the possible remainders of the
input in order of preference. -/
def optRun (f : List Char → List (List Char)) : Nat → List Char → List (List Char)
  | 0, s => [s]
  | k + 1, s => (f s).flatMap (optRun f k) ++ [s]

/-- Greedy counted repetition of a matcher `f`: `n` mandatory copies followed
by at most `k` further copies. -/
def repRun (f : List Char → List (List Char)) (k : Nat) : Nat → List Char → List (List Char)
  | 0, s => optRun f k s
  | n + 1, s => (f s).flatMap (repRun f k n)

/-- Backtracking matcher, anchored at the start of `s`: all the ways the
pattern matches a prefix of `s`, each given by the remainder of `s` after the
match, in the order of preference of leftmost-first matching (the first entry
is the match `regexp` reports at this position). -/
def Re.run : Re → List Char → List (List Char)
  | .lit c => fun s =>
    match s with
    | x :: xs => if x = c then [xs] else []
    | [] => []
  | .cls lo hi => fun s =>
    match s with
    | x :: xs => if lo ≤ x ∧ x ≤ hi then [xs] else []
    | [] => []
  | .cat a b => fun s => (a.run s).flatMap b.run
  | .quest a => fun s => a.run s ++ [s]
  | .rep a lo hi => fun s => repRun a.run (hi - lo) lo s
  | .cap a => fun s => a.run s

/-- Length of the match the engine reports at the very start of `s`, if the
pattern matches there. -/
def Re.matchAt (re : Re) (s : List Char) : Option Nat :=
  (re.run s).head?.map fun rest => s.length - rest.length

/-- Unanchored search: does the pattern match somewhere in `s`? -/
def Re.search (re : Re) : List Char → Bool
  | [] => !(re.run []).isEmpty
  | c :: cs => !(re.run (c :: cs)).isEmpty || re.search cs

/-- Worker of `ReplaceAllString` for the empty replacement.  The first
argument counts the characters of the current match that are still to be
dropped.  Outside a match the engine looks for a match at the current
position; a non-empty one is dropped, otherwise the character is copied and
the search resumes one character further (an empty match is replaced by the
empty string, which changes nothing). -/
def Re.deleteAux (re : Re) : Nat → List Char → List Char
  | _, [] => []
  | k + 1, _ :: cs => re.deleteAux k cs
  | 0, c :: cs =>
    match re.matchAt (c :: cs) with
    | some (n + 1) => re.deleteAux n cs
    | _ => c :: re.deleteAux 0 cs

/-- Go `re.MatchString(s)`. -/
def Re.MatchString (re : Re) (s : String) : Bool :=
  re.search s.data

/-- Go `re.ReplaceAllString(src, "")`: the leftmost non-overlapping matches of
`re` in `src` are deleted. -/
def Re.ReplaceAllStringEmpty (re : Re) (src : String) : String :=
  String.mk (re.deleteAux 0 src.data)

/-- The class `[0-9]`. -/
def digit : Re := .cls '0' '9'

/-- The pattern
`(\[([0-9]{1,2}:)?([0-9]{1,2}:)([0-9]{1,2})(\.[0-9]{1,2})?\])`. -/
def TIMESTAMP_REGEX : Re :=
  .cap (.cat (.lit '[')
    (.cat (.quest (.cap (.cat (.rep digit 1 2) (.lit ':'))))
      (.cat (.cap (.cat (.rep digit 1 2) (.lit ':')))
        (.cat (.cap (.rep digit 1 2))
          (.cat (.quest (.cap (.cat (.lit '.') (.rep digit 1 2))))
            (.lit ']'))))))

/-- Go `isSynced(rawLyrics)`: the pattern is compiled and searched for. -/
def isSynced (rawLyrics : String) : Bool :=
  TIMESTAMP_REGEX.MatchString rawLyrics

/-- The value `GetLyrics` stores in `lyrics.Value` for the raw lyrics of the
first media file (the `if isSynced(...)` statement of `GetLyrics`). -/
def lyricsValue (rawLyrics : String) : String :=
  if isSynced rawLyrics then
    TIMESTAMP_REGEX.ReplaceAllStringEmpty rawLyrics
  else
    rawLyrics

/-! ## Data model, collaborators and the response -/

/-- Modelled from the spec: the machine-readable error kinds of the protocol
(`responses.ErrorGeneric`, `responses.ErrorMissingParameter`,
`responses.ErrorDataNotFound`), declared outside the source file. -/
inductive ErrorCode where
  | ErrorGeneric
  | ErrorMissingParameter
  | ErrorDataNotFound
  deriving DecidableEq

/-- A Go `error` value as the handlers see it: the sentinel
`model.ErrNotFound`, a protocol error built by `newError`, or any other
error. -/
inductive GoError where
  | ErrNotFound
  | subsonic (code : ErrorCode) (message : String)
  | other (message : String)
  deriving DecidableEq

/-- Modelled from the spec: `model.User`, declared outside the source file,
with its attributes username and email. -/
structure User where
  UserName : String
  Email : String
  deriving DecidableEq

/-- Modelled from the spec: `model.MediaFile`, declared outside the source
file, with its attributes artist, title and lyrics. -/
structure MediaFile where
  Artist : String
  Title : String
  Lyrics : String
  deriving DecidableEq

/-- Modelled from the spec: `responses.Lyrics`, declared outside the source
file, with its fields artist, title and value; the default is the zero value
of the Go struct. -/
structure Lyrics where
  Artist : String := ""
  Title : String := ""
  Value : String := ""
  deriving DecidableEq

/-- Modelled from the spec: the success payload `responses.Subsonic`, whose
declaration is not part of the source file; only the lyrics field, the one the
handlers assign, is kept. -/
structure Subsonic where
  Lyrics : Option Lyrics := none
  deriving DecidableEq

/-- Modelled from the spec: the catalog filter `filter.SongsWithLyrics(artist,
title)` (songs matching the pair, restricted to records with lyrics); the
catalog interprets it, so only the pair it is built from is kept. -/
structure Options where
  artist : String
  title : String
  deriving DecidableEq

/-- Modelled from the spec: `filter.SongsWithLyrics`, see `Options`. -/
def SongsWithLyrics (artist title : String) : Options :=
  { artist := artist, title := title }

/-- A readable byte stream (`io.ReadCloser`): the bytes it yields and the
error that ends the read, `none` for a clean end of stream. -/
structure Reader where
  data : List Nat
  err : Option GoError
  deriving DecidableEq

/-- The request: its query parameters, in order. -/
structure Request where
  params : List (String × String)
  deriving DecidableEq

/-- The response writer: headers set, body bytes written, and the redirect
issued (target and status code), if any. -/
structure ResponseWriter where
  header : List (String × String) := []
  body : List Nat := []
  redirect : Option (String × Nat) := none
  deriving DecidableEq

/-- Log levels used by the handlers. -/
inductive Level where
  | Warn
  | Error
  deriving DecidableEq

/-- What a handler does to its surroundings, in order: the collaborator calls
(user lookup, catalog query, artwork resolver, opening the placeholder asset),
closing a stream, and writing a log line. -/
inductive Event where
  | FindByUsername (username : String)
  | GetAll (options : Options)
  | ArtworkGet (id : String) (size : Int)
  | OpenPlaceholder
  | Close
  | Log (level : Level) (message : String)
  deriving DecidableEq

/-- The state a handler runs in: the response writer and the trace of events
so far. -/
structure World where
  w : ResponseWriter := {}
  events : List Event := []
  deriving DecidableEq

/-- The surroundings of the controller: the flag `conf.Server.EnableGravatar`,
the datastore (`c.ds.User(ctx).FindByUsername`, `c.ds.MediaFile(ctx).GetAll`),
the artwork resolver (`c.artwork.Get`), the bundled placeholder asset
(`resources.FS.Open(consts.PlaceholderAvatar)`) and `gravatar.Url`. -/
structure Env where
  EnableGravatar : Bool
  FindByUsername : String → Except GoError User
  GetAll : Options → Except GoError (List MediaFile)
  ArtworkGet : String → Int → Except GoError Reader
  OpenPlaceholder : Except GoError Reader
  GravatarUrl : String → Int → String

/-- The Go result pair `(*responses.Subsonic, error)`: `(nil, err)` is
`.error err`, `(nil, nil)` is `.ok none`, `(response, nil)` is
`.ok (some response)`. -/
abbrev Result := Except GoError (Option Subsonic)

/-- Append an event to the trace. -/
def World.emit (s : World) (e : Event) : World :=
  { s with events := s.events ++ [e] }

/-- Go `w.Header().Set(key, value)`. -/
def World.setHeader (s : World) (key value : String) : World :=
  { s with w := { s.w with header := (key, value) :: s.w.header.filter fun kv => kv.1 != key } }

/-- Go `w.Header().Get(key)`. -/
def World.getHeader (s : World) (key : String) : Option String :=
  s.w.header.lookup key

/-- Go `io.Copy(w, f)`: the bytes of `f` are appended to the body; the result
is the error that ended the read, if any. -/
def World.copy (s : World) (f : Reader) : Option GoError × World :=
  (f.err, { s with w := { s.w with body := s.w.body ++ f.data } })

/-- Go `http.Redirect(w, r, url, code)`. -/
def World.redirect (s : World) (url : String) (code : Nat) : World :=
  { s with w := { s.w with redirect := some (url, code) } }

/-- Go `http.StatusFound`. -/
def StatusFound : Nat := 302

/-- Modelled from the spec: `utils.ParamString`, the value of an optional
string parameter, `""` when the request does not carry it. -/
def ParamString (r : Request) (param : String) : String :=
  (r.params.lookup param).getD ""

/-- Modelled from the spec: `utils.ParamStringDefault`, the value of an
optional string parameter, the given default when the request does not carry
it. -/
def ParamStringDefault (r : Request) (param : String) (dflt : String) : String :=
  (r.params.lookup param).getD dflt

/-- Modelled from the spec: `utils.ParamInt`, the value of an optional integer
parameter, the given default when the request does not carry an integer. -/
def ParamInt (r : Request) (param : String) (dflt : Int) : Int :=
  ((r.params.lookup param).bind String.toInt?).getD dflt

/-- Modelled from the spec: `newError`, a structured error carrying a
machine-readable kind and a human-readable message. -/
def newError (code : ErrorCode) (message : String) : GoError :=
  .subsonic code message

/-- Modelled from the spec: `requiredParamString`, the value of a required
string parameter; a missing parameter is a client error. -/
def requiredParamString (r : Request) (param : String) : Except GoError String :=
  match r.params.lookup param with
  | none => .error (newError .ErrorMissingParameter ("required parameter is missing: " ++ param))
  | some p => .ok p

/-- Modelled from the spec: `newResponse`, the empty success payload. -/
def newResponse : Subsonic := {}

/-! ## The handlers -/

/-- Go `getPlaceHolderAvatar`. -/
def getPlaceHolderAvatar (c : Env) (s : World) : Result × World :=
  let s := s.emit .OpenPlaceholder
  match c.OpenPlaceholder with
  | .error _ =>
    (.error (newError .ErrorDataNotFound "Avatar image not found"),
      s.emit (.Log .Error "Image not found"))
  | .ok f =>
    let s := (s.copy f).2
    (.ok none, s.emit .Close)

/-- Go `GetAvatar`. -/
def GetAvatar (c : Env) (r : Request) (s : World) : Result × World :=
  if !c.EnableGravatar then
    getPlaceHolderAvatar c s
  else
    match requiredParamString r "username" with
    | .error err => (.error err, s)
    | .ok username =>
      let s := s.emit (.FindByUsername username)
      match c.FindByUsername username with
      | .error err => (.error err, s)
      | .ok u =>
        if u.Email = "" then
          getPlaceHolderAvatar c
            (s.emit (.Log .Warn "User needs an email for gravatar to work"))
        else
          (.ok none, s.redirect (c.GravatarUrl u.Email 0) StatusFound)

/-- Go `GetCoverArt`. -/
def GetCoverArt (c : Env) (r : Request) (s : World) : Result × World :=
  let id := ParamStringDefault r "id" "non-existent"
  let size := ParamInt r "size" 0
  let s := s.setHeader "cache-control" "public, max-age=315360000"
  let s := s.emit (.ArtworkGet id size)
  match c.ArtworkGet id size with
  | .error .ErrNotFound =>
    (.error (newError .ErrorDataNotFound "Artwork not found"),
      s.emit (.Log .Error "Couldn't find coverArt"))
  | .error err =>
    (.error err, s.emit (.Log .Error "Error retrieving coverArt"))
  | .ok imgReader =>
    let (err, s) := s.copy imgReader
    let s := s.emit .Close
    match err with
    | none => (.ok none, s)
    | some err => (.error err, s)

/-- Go `GetLyrics`. -/
def GetLyrics (c : Env) (r : Request) (s : World) : Result × World :=
  let artist := ParamString r "artist"
  let title := ParamString r "title"
  let response := newResponse
  let lyrics : Lyrics := {}
  let s := s.emit (.GetAll (SongsWithLyrics artist title))
  match c.GetAll (SongsWithLyrics artist title) with
  | .error err => (.error err, s)
  | .ok media_files =>
    match media_files with
    | [] => (.ok (some { response with Lyrics := some lyrics }), s)
    | first :: _ =>
      let lyrics := { lyrics with Artist := artist, Title := title }
      let lyrics := { lyrics with Value := lyricsValue first.Lyrics }
      (.ok (some { response with Lyrics := some lyrics }), s)

/-! ## Concrete surroundings for the worked examples -/

/-- Example surroundings: one user `alice` with an email address, one artwork
`al-1`, a catalog that answers every query with `files`; the flag and the
placeholder asset are parameters. -/
def demoEnv (flag : Bool) (placeholder : Except GoError Reader) (files : List MediaFile) : Env :=
  { EnableGravatar := flag
    FindByUsername := fun u =>
      if u = "alice" then .ok { UserName := "alice", Email := "alice@example.com" }
      else .error .ErrNotFound
    GetAll := fun _ => .ok files
    ArtworkGet := fun id _ =>
      if id = "al-1" then .ok { data := [255, 216, 255], err := none }
      else .error .ErrNotFound
    OpenPlaceholder := placeholder
    GravatarUrl := fun email _ => "https://www.gravatar.com/avatar/" ++ email }

/-- Example placeholder asset. -/
def demoAsset : Reader := { data := [137, 80, 78, 71], err := none }

/-! ## The timestamp grammar as the specification words it -/

/-- One or two decimal digits. -/
def Digits12 (d : List Char) : Prop :=
  (d.length = 1 ∨ d.length = 2) ∧ ∀ c ∈ d, c.isDigit = true

/-- A timestamp marker: `[`, optionally one or two digits and `:`, then one or
two digits, `:`, one or two digits, optionally `.` and one or two digits,
then `]`. -/
def IsTimestamp (m : List Char) : Prop :=
  ∃ hh mm ss ff : List Char,
    (hh = [] ∨ ∃ d, Digits12 d ∧ hh = d ++ [':']) ∧
    Digits12 mm ∧ Digits12 ss ∧
    (ff = [] ∨ ∃ d, Digits12 d ∧ ff = '.' :: d) ∧
    m = '[' :: (hh ++ (mm ++ (':' :: (ss ++ (ff ++ [']'])))))

/-- Some substring of `t` is a timestamp marker. -/
def HasTimestamp (t : List Char) : Prop :=
  ∃ m, IsTimestamp m ∧ m <:+: t

/-- The text `t0 m1 t1 ... mn tn` for the pairs `(mi, ti)` of `ps`. -/
def assemble (t0 : List Char) (ps : List (List Char × List Char)) : List Char :=
  t0 ++ ps.flatMap fun p => p.1 ++ p.2

/-- The text `t0 t1 ... tn` for the pairs `(mi, ti)` of `ps`. -/
def gaps (t0 : List Char) (ps : List (List Char × List Char)) : List Char :=
  t0 ++ ps.flatMap fun p => p.2

/-- The language of an optional repetition, see `optRun`. -/
def OptMatches (P : List Char → Prop) : Nat → List Char → Prop
  | 0, m => m = []
  | k + 1, m => m = [] ∨ ∃ u v, P u ∧ OptMatches P k v ∧ m = u ++ v

/-- The language of a counted repetition, see `repRun`. -/
def RepMatches (P : List Char → Prop) (k : Nat) : Nat → List Char → Prop
  | 0, m => OptMatches P k m
  | n + 1, m => ∃ u v, P u ∧ RepMatches P k n v ∧ m = u ++ v

/-- The language of a pattern: the strings it matches as a whole. -/
def Re.Matches : Re → List Char → Prop
  | .lit c => fun m => m = [c]
  | .cls lo hi => fun m => ∃ x, (lo ≤ x ∧ x ≤ hi) ∧ m = [x]
  | .cat a b => fun m => ∃ u v, a.Matches u ∧ b.Matches v ∧ m = u ++ v
  | .quest a => fun m => m = [] ∨ a.Matches m
  | .rep a lo hi => fun m => RepMatches a.Matches (hi - lo) lo m
  | .cap a => fun m => a.Matches m

/-! ## The matcher computes the language of the pattern -/

theorem optRun_iff (f : List Char → List (List Char)) (P : List Char → Prop)
    (hf : ∀ s rest, rest ∈ f s ↔ ∃ m, P m ∧ s = m ++ rest) :
    ∀ k s rest, rest ∈ optRun f k s ↔ ∃ m, OptMatches P k m ∧ s = m ++ rest := by
  intro k
  induction k with
  | zero =>
    intro s rest
    simp only [optRun, OptMatches, List.mem_singleton]
    constructor
    · rintro rfl
      exact ⟨[], rfl, rfl⟩
    · rintro ⟨m, rfl, rfl⟩
      rfl
  | succ k ih =>
    intro s rest
    simp only [optRun, OptMatches, List.mem_append, List.mem_flatMap, List.mem_singleton]
    constructor
    · rintro (⟨a, ha, hr⟩ | rfl)
      · obtain ⟨u, hu, rfl⟩ := (hf s a).1 ha
        obtain ⟨v, hv, rfl⟩ := (ih a rest).1 hr
        exact ⟨u ++ v, Or.inr ⟨u, v, hu, hv, rfl⟩, by simp⟩
      · exact ⟨[], Or.inl rfl, rfl⟩
    · rintro ⟨m, (rfl | ⟨u, v, hu, hv, rfl⟩), rfl⟩
      · exact Or.inr rfl
      · refine Or.inl ⟨v ++ rest, (hf _ _).2 ⟨u, hu, by simp⟩, (ih _ _).2 ⟨v, hv, rfl⟩⟩

theorem repRun_iff (f : List Char → List (List Char)) (P : List Char → Prop)
    (hf : ∀ s rest, rest ∈ f s ↔ ∃ m, P m ∧ s = m ++ rest) (k : Nat) :
    ∀ n s rest, rest ∈ repRun f k n s ↔ ∃ m, RepMatches P k n m ∧ s = m ++ rest := by
  intro n
  induction n with
  | zero =>
    intro s rest
    simpa only [repRun, RepMatches] using optRun_iff f P hf k s rest
  | succ n ih =>
    intro s rest
    simp only [repRun, RepMatches, List.mem_flatMap]
    constructor
    · rintro ⟨a, ha, hr⟩
      obtain ⟨u, hu, rfl⟩ := (hf s a).1 ha
      obtain ⟨v, hv, rfl⟩ := (ih a rest).1 hr
      exact ⟨u ++ v, ⟨u, v, hu, hv, rfl⟩, by simp⟩
    · rintro ⟨m, ⟨u, v, hu, hv, rfl⟩, rfl⟩
      exact ⟨v ++ rest, (hf _ _).2 ⟨u, hu, by simp⟩, (ih _ _).2 ⟨v, hv, rfl⟩⟩

/-- The anchored matcher lists exactly the remainders left by the strings of
the pattern's language. -/
theorem run_iff (re : Re) :
    ∀ s rest, rest ∈ re.run s ↔ ∃ m, re.Matches m ∧ s = m ++ rest := by
  induction re with
  | lit c =>
    intro s rest
    cases s with
    | nil => simp [Re.run, Re.Matches]
    | cons x xs =>
      by_cases hx : x = c
      · subst hx
        simp [Re.run, Re.Matches, eq_comm]
      · simp only [Re.run, Re.Matches, hx, if_false, List.not_mem_nil, false_iff]
        rintro ⟨m, rfl, h⟩
        simp at h
        exact hx h.1
  | cls lo hi =>
    intro s rest
    cases s with
    | nil =>
      simp only [Re.run, Re.Matches, List.not_mem_nil, false_iff]
      rintro ⟨m, ⟨y, _, rfl⟩, h⟩
      simp at h
    | cons x xs =>
      by_cases hx : lo ≤ x ∧ x ≤ hi
      · simp only [Re.run, Re.Matches, hx, and_self, if_true, List.mem_singleton]
        constructor
        · rintro rfl
          exact ⟨[x], ⟨x, hx, rfl⟩, rfl⟩
        · rintro ⟨m, ⟨y, _, rfl⟩, h⟩
          simp at h
          exact h.2.symm
      · simp only [Re.run, Re.Matches, hx, if_false, List.not_mem_nil, false_iff]
        rintro ⟨m, ⟨y, hy, rfl⟩, h⟩
        simp at h
        exact hx (h.1 ▸ hy)
  | cat a b iha ihb =>
    intro s rest
    simp only [Re.run, Re.Matches, List.mem_flatMap]
    constructor
    · rintro ⟨t, ht, hr⟩
      obtain ⟨u, hu, rfl⟩ := (iha s t).1 ht
      obtain ⟨v, hv, rfl⟩ := (ihb t rest).1 hr
      exact ⟨u ++ v, ⟨u, v, hu, hv, rfl⟩, by simp⟩
    · rintro ⟨m, ⟨u, v, hu, hv, rfl⟩, rfl⟩
      exact ⟨v ++ rest, (iha _ _).2 ⟨u, hu, by simp⟩, (ihb _ _).2 ⟨v, hv, rfl⟩⟩
  | quest a iha =>
    intro s rest
    simp only [Re.run, Re.Matches, List.mem_append, List.mem_singleton]
    constructor
    · rintro (h | rfl)
      · obtain ⟨u, hu, rfl⟩ := (iha s rest).1 h
        exact ⟨u, Or.inr hu, rfl⟩
      · exact ⟨[], Or.inl rfl, rfl⟩
    · rintro ⟨m, (rfl | hm), rfl⟩
      · exact Or.inr rfl
      · exact Or.inl ((iha _ _).2 ⟨m, hm, rfl⟩)
  | rep a lo hi iha =>
    intro s rest
    simpa only [Re.run, Re.Matches] using repRun_iff a.run a.Matches iha (hi - lo) lo s rest
  | cap a iha =>
    intro s rest
    simpa only [Re.run, Re.Matches] using iha s rest

/-! ## The pattern and the grammar of the specification -/

theorem cls_digit_iff (x : Char) : ('0' ≤ x ∧ x ≤ '9') ↔ x.isDigit = true := by
  simp [Char.isDigit, Char.le_def]

theorem rep12_digit_iff (m : List Char) :
    (Re.rep digit 1 2).Matches m ↔ Digits12 m := by
  simp only [Re.Matches, digit, RepMatches, OptMatches, cls_digit_iff, Digits12]
  constructor
  · rintro ⟨u, v, ⟨x, hx, rfl⟩, (rfl | ⟨u2, v2, ⟨y, hy, rfl⟩, rfl, rfl⟩), rfl⟩
    · simpa using hx
    · simp [hx, hy]
  · rintro ⟨hlen, hall⟩
    match m, hlen, hall with
    | [x], _, hall =>
      exact ⟨[x], [], ⟨x, hall x (by simp), rfl⟩, Or.inl rfl, rfl⟩
    | [x, y], _, hall =>
      exact ⟨[x], [y], ⟨x, hall x (by simp), rfl⟩,
        Or.inr ⟨[y], [], ⟨y, hall y (by simp), rfl⟩, rfl, rfl⟩, rfl⟩
    | [], h, _ => simp at h
    | _ :: _ :: _ :: _, h, _ => simp at h

/-- The language of `TIMESTAMP_REGEX` is the timestamp grammar. -/
theorem timestamp_matches_iff (m : List Char) :
    TIMESTAMP_REGEX.Matches m ↔ IsTimestamp m := by
  have hd := rep12_digit_iff
  simp only [TIMESTAMP_REGEX, Re.Matches] at hd ⊢
  simp only [hd, IsTimestamp]
  constructor
  · rintro ⟨u, v, rfl, ⟨hh, v1, hhh, ⟨u2, v2, ⟨mm, c1, hmm, rfl, rfl⟩,
      ⟨ss, v3, hss, ⟨ff, c2, hff, rfl, rfl⟩, rfl⟩, rfl⟩, rfl⟩, rfl⟩
    refine ⟨hh, mm, ss, ff, ?_, hmm, hss, ?_, by simp⟩
    · rcases hhh with rfl | ⟨d, c, hd1, rfl, rfl⟩
      · exact Or.inl rfl
      · exact Or.inr ⟨d, hd1, rfl⟩
    · rcases hff with rfl | ⟨c, d, rfl, hd1, rfl⟩
      · exact Or.inl rfl
      · exact Or.inr ⟨d, hd1, rfl⟩
  · rintro ⟨hh, mm, ss, ff, hhh, hmm, hss, hff, rfl⟩
    refine ⟨['['], _, rfl, ⟨hh, _, ?_, ⟨mm ++ [':'], _, ⟨mm, [':'], hmm, rfl, rfl⟩,
      ⟨ss, _, hss, ⟨ff, [']'], ?_, rfl, rfl⟩, rfl⟩, rfl⟩, rfl⟩, by simp⟩
    · rcases hhh with rfl | ⟨d, hd1, rfl⟩
      · exact Or.inl rfl
      · exact Or.inr ⟨d, [':'], hd1, rfl, rfl⟩
    · rcases hff with rfl | ⟨d, hd1, rfl⟩
      · exact Or.inl rfl
      · exact Or.inr ⟨['.'], d, rfl, hd1, rfl⟩

/-! ## Shape of a marker -/

theorem digits12_no_bracket {d : List Char} (h : Digits12 d) : '[' ∉ d ∧ ']' ∉ d := by
  constructor
  · intro hc
    exact absurd (h.2 _ hc) (by decide)
  · intro hc
    exact absurd (h.2 _ hc) (by decide)

/-- A marker is `[`, a body without brackets, and `]`. -/
theorem isTimestamp_shape {m : List Char} (h : IsTimestamp m) :
    ∃ body, m = '[' :: (body ++ [']']) ∧ '[' ∉ body ∧ ']' ∉ body := by
  obtain ⟨hh, mm, ss, ff, hhh, hmm, hss, hff, rfl⟩ := h
  have h1 : '[' ∉ hh ∧ ']' ∉ hh := by
    rcases hhh with rfl | ⟨d, hd, rfl⟩
    · simp
    · have := digits12_no_bracket hd
      simp [this.1, this.2]
  have h2 := digits12_no_bracket hmm
  have h3 := digits12_no_bracket hss
  have h4 : '[' ∉ ff ∧ ']' ∉ ff := by
    rcases hff with rfl | ⟨d, hd, rfl⟩
    · simp
    · have := digits12_no_bracket hd
      simp [this.1, this.2]
  refine ⟨hh ++ (mm ++ (':' :: (ss ++ ff))), by simp, ?_, ?_⟩
  · simp [h1.1, h2.1, h3.1, h4.1]
  · simp [h1.2, h2.2, h3.2, h4.2]

theorem isTimestamp_ne_nil {m : List Char} (h : IsTimestamp m) : m ≠ [] := by
  obtain ⟨body, rfl, -⟩ := isTimestamp_shape h
  simp

/-- The first occurrence of a symbol splits a list in one way only. -/
theorem split_at_first {x : Char} :
    ∀ {a b r r2 : List Char}, x ∉ a → x ∉ b → a ++ x :: r = b ++ x :: r2 → a = b ∧ r = r2 := by
  intro a
  induction a with
  | nil =>
    intro b r r2 _ hb h
    cases b with
    | nil => simpa using h
    | cons y b =>
      simp at h
      simp [h.1] at hb
  | cons y a ih =>
    intro b r r2 ha hb h
    cases b with
    | nil =>
      simp at h
      simp [h.1] at ha
    | cons z b =>
      simp at h ha hb
      obtain ⟨hab, hr⟩ := @ih b r r2 (by tauto) (by tauto) h.2
      exact ⟨by rw [h.1, hab], hr⟩

/-- At a given position at most one marker starts. -/
theorem isTimestamp_unique {m1 m2 r1 r2 : List Char} (h1 : IsTimestamp m1)
    (h2 : IsTimestamp m2) (h : m1 ++ r1 = m2 ++ r2) : m1 = m2 ∧ r1 = r2 := by
  obtain ⟨b1, rfl, -, hb1⟩ := isTimestamp_shape h1
  obtain ⟨b2, rfl, -, hb2⟩ := isTimestamp_shape h2
  simp only [List.cons_append, List.append_assoc, List.singleton_append, List.cons.injEq,
    true_and] at h
  obtain ⟨hb, hr⟩ := split_at_first hb1 hb2 h
  exact ⟨by rw [hb], hr⟩

/-! ## The matcher at one position -/

theorem timestamp_run_iff (s rest : List Char) :
    rest ∈ TIMESTAMP_REGEX.run s ↔ ∃ m, IsTimestamp m ∧ s = m ++ rest := by
  rw [run_iff]
  simp only [timestamp_matches_iff]

/-- A marker is a string the anchored matcher consumes entirely. -/
theorem isTimestamp_iff_run (m : List Char) :
    IsTimestamp m ↔ [] ∈ TIMESTAMP_REGEX.run m := by
  rw [timestamp_run_iff]
  constructor
  · intro h
    exact ⟨m, h, by simp⟩
  · rintro ⟨m2, h, rfl⟩
    simpa using h

/-- Where a marker starts, the engine reports exactly that marker. -/
theorem matchAt_marker {m : List Char} (hm : IsTimestamp m) (rest : List Char) :
    TIMESTAMP_REGEX.matchAt (m ++ rest) = some m.length := by
  have hmem : rest ∈ TIMESTAMP_REGEX.run (m ++ rest) :=
    (timestamp_run_iff _ _).2 ⟨m, hm, rfl⟩
  unfold Re.matchAt
  cases hrun : TIMESTAMP_REGEX.run (m ++ rest) with
  | nil => simp [hrun] at hmem
  | cons r0 rs =>
    have h0 : r0 ∈ TIMESTAMP_REGEX.run (m ++ rest) := by simp [hrun]
    obtain ⟨m0, hm0, heq⟩ := (timestamp_run_iff _ _).1 h0
    obtain ⟨-, hr⟩ := isTimestamp_unique hm hm0 heq
    subst hr
    simp

/-- Where no marker starts, the engine reports no match. -/
theorem matchAt_none {s : List Char} (h : ∀ m rest, IsTimestamp m → s ≠ m ++ rest) :
    TIMESTAMP_REGEX.matchAt s = none := by
  unfold Re.matchAt
  cases hrun : TIMESTAMP_REGEX.run s with
  | nil => rfl
  | cons r0 rs =>
    have h0 : r0 ∈ TIMESTAMP_REGEX.run s := by simp [hrun]
    obtain ⟨m0, hm0, heq⟩ := (timestamp_run_iff _ _).1 h0
    exact absurd heq (h m0 r0 hm0)

/-! ## Unanchored search -/

theorem search_iff (re : Re) (s : List Char) :
    re.search s = true ↔ ∃ m, re.Matches m ∧ m <:+: s := by
  induction s with
  | nil =>
    simp only [Re.search, Bool.not_eq_true', List.isEmpty_eq_false]
    constructor
    · intro h
      obtain ⟨r, hr⟩ := List.exists_mem_of_ne_nil _ h
      obtain ⟨m, hm, heq⟩ := (run_iff re _ _).1 hr
      exact ⟨m, hm, ⟨[], r, by simpa using heq.symm⟩⟩
    · rintro ⟨m, hm, ⟨a, b, hab⟩⟩
      have hm2 : m = [] := by
        simp at hab
        exact hab.2.1
      have : [] ∈ re.run [] := (run_iff re _ _).2 ⟨m, hm, by simp [hm2]⟩
      exact List.ne_nil_of_mem this
  | cons c cs ih =>
    simp only [Re.search, Bool.or_eq_true, Bool.not_eq_true', List.isEmpty_eq_false, ih]
    constructor
    · rintro (h | ⟨m, hm, hin⟩)
      · obtain ⟨r, hr⟩ := List.exists_mem_of_ne_nil _ h
        obtain ⟨m, hm, heq⟩ := (run_iff re _ _).1 hr
        exact ⟨m, hm, ⟨[], r, by simpa using heq.symm⟩⟩
      · obtain ⟨a, b, hab⟩ := hin
        exact ⟨m, hm, ⟨c :: a, b, by simp [← hab]⟩⟩
    · rintro ⟨m, hm, ⟨a, b, hab⟩⟩
      cases a with
      | nil =>
        left
        have : b ∈ re.run (c :: cs) := (run_iff re _ _).2 ⟨m, hm, by simpa using hab.symm⟩
        exact List.ne_nil_of_mem this
      | cons x a =>
        right
        simp at hab
        exact ⟨m, hm, ⟨a, b, by simpa using hab.2⟩⟩

/-- The search for `TIMESTAMP_REGEX` succeeds exactly on the texts that have a
marker as a substring. -/
theorem timestamp_search_iff (s : List Char) :
    TIMESTAMP_REGEX.search s = true ↔ HasTimestamp s := by
  rw [search_iff]
  simp only [timestamp_matches_iff, HasTimestamp]

theorem not_hasTimestamp_iff (s : List Char) :
    ¬ HasTimestamp s ↔ TIMESTAMP_REGEX.search s = false := by
  rw [← timestamp_search_iff]
  simp

/-! ## Deleting the matches -/

theorem deleteAux_drop (re : Re) :
    ∀ (k : Nat) (l : List Char), re.deleteAux k l = re.deleteAux 0 (l.drop k) := by
  intro k
  induction k with
  | zero => intro l; rfl
  | succ k ih =>
    intro l
    cases l with
    | nil => simp [Re.deleteAux]
    | cons c cs => simpa [Re.deleteAux] using ih cs

theorem deleteAux_of_some (re : Re) (c : Char) (cs : List Char) (n : Nat)
    (h : re.matchAt (c :: cs) = some (n + 1)) :
    re.deleteAux 0 (c :: cs) = re.deleteAux n cs := by
  show (match re.matchAt (c :: cs) with
    | some (n + 1) => re.deleteAux n cs
    | _ => c :: re.deleteAux 0 cs) = _
  rw [h]

theorem deleteAux_of_none (re : Re) (c : Char) (cs : List Char)
    (h : re.matchAt (c :: cs) = none) :
    re.deleteAux 0 (c :: cs) = c :: re.deleteAux 0 cs := by
  show (match re.matchAt (c :: cs) with
    | some (n + 1) => re.deleteAux n cs
    | _ => c :: re.deleteAux 0 cs) = _
  rw [h]

/-- A marker at the current position is dropped as a whole. -/
theorem delete_marker {m : List Char} (hm : IsTimestamp m) (rest : List Char) :
    TIMESTAMP_REGEX.deleteAux 0 (m ++ rest) = TIMESTAMP_REGEX.deleteAux 0 rest := by
  have hat := matchAt_marker hm rest
  obtain ⟨body, rfl, -⟩ := isTimestamp_shape hm
  have hat2 : TIMESTAMP_REGEX.matchAt ('[' :: (body ++ [']'] ++ rest)) =
      some ((body ++ [']']).length + 1) := by
    simpa using hat
  show TIMESTAMP_REGEX.deleteAux 0 ('[' :: (body ++ [']'] ++ rest)) = _
  rw [deleteAux_of_some _ _ _ _ hat2, deleteAux_drop]
  simp

theorem hasTimestamp_tail {c : Char} {t : List Char} (h : ¬ HasTimestamp (c :: t)) :
    ¬ HasTimestamp t := by
  rintro ⟨m, hm, ⟨a, b, hab⟩⟩
  exact h ⟨m, hm, ⟨c :: a, b, by simp [← hab]⟩⟩

/-- No marker starts inside a stretch of text that contains none and is
followed by the end of the text or by an opening bracket. -/
theorem no_marker_start {c : Char} {t u : List Char} (ht : ¬ HasTimestamp (c :: t))
    (hu : u = [] ∨ ∃ v, u = '[' :: v) :
    ∀ m rest, IsTimestamp m → c :: (t ++ u) ≠ m ++ rest := by
  intro m rest hm heq
  have heq2 : (c :: t) ++ u = m ++ rest := by simpa using heq
  rcases List.append_eq_append_iff.1 heq2 with ⟨a, ha, hua⟩ | ⟨b, hb, -⟩
  · -- the marker covers the stretch: `m = (c :: t) ++ a` and `u = a ++ rest`
    cases a with
    | nil => exact ht ⟨m, hm, ⟨[], [], by simp [ha]⟩⟩
    | cons x a =>
      -- the opening bracket of `u` would lie inside the marker
      rcases hu with rfl | ⟨v, rfl⟩
      · simp at hua
      · simp only [List.cons_append, List.cons.injEq] at hua
        obtain ⟨body, rfl, hb1, -⟩ := isTimestamp_shape hm
        simp only [List.cons_append, List.cons.injEq] at ha
        have hmem : '[' ∈ body ++ [']'] := by
          rw [ha.2, ← hua.1]; simp
        simp at hmem
        exact hb1 hmem
  · -- the marker ends inside the stretch: `c :: t = m ++ b`
    exact ht ⟨m, hm, ⟨[], b, by simp [hb]⟩⟩

/-- A stretch of text without a marker is copied unchanged. -/
theorem delete_clean :
    ∀ (t u : List Char), ¬ HasTimestamp t → (u = [] ∨ ∃ v, u = '[' :: v) →
      TIMESTAMP_REGEX.deleteAux 0 (t ++ u) = t ++ TIMESTAMP_REGEX.deleteAux 0 u := by
  intro t
  induction t with
  | nil => intro u _ _; rfl
  | cons c t ih =>
    intro u ht hu
    have hnone : TIMESTAMP_REGEX.matchAt (c :: (t ++ u)) = none :=
      matchAt_none (no_marker_start ht hu)
    show TIMESTAMP_REGEX.deleteAux 0 (c :: (t ++ u)) = c :: (t ++ TIMESTAMP_REGEX.deleteAux 0 u)
    rw [deleteAux_of_none _ _ _ hnone, ih u (hasTimestamp_tail ht) hu]

/-- Deleting the matches of `t0 m1 t1 ... mn tn` leaves `t0 t1 ... tn`. -/
theorem delete_assemble :
    ∀ (ps : List (List Char × List Char)) (t0 : List Char), ¬ HasTimestamp t0 →
      (∀ p ∈ ps, IsTimestamp p.1 ∧ ¬ HasTimestamp p.2) →
      TIMESTAMP_REGEX.deleteAux 0 (assemble t0 ps) = gaps t0 ps := by
  intro ps
  induction ps with
  | nil =>
    intro t0 h0 _
    have := delete_clean t0 [] h0 (Or.inl rfl)
    simpa [assemble, gaps, Re.deleteAux] using this
  | cons p ps ih =>
    intro t0 h0 hps
    obtain ⟨hm, ht⟩ := hps p (by simp)
    have hrest := ih p.2 ht (fun q hq => hps q (by simp [hq]))
    obtain ⟨body, hbody, -⟩ := isTimestamp_shape hm
    have hstart : p.1 ++ assemble p.2 ps = '[' :: (body ++ [']'] ++ assemble p.2 ps) := by
      rw [hbody]; simp
    have h1 := delete_clean t0 (p.1 ++ assemble p.2 ps) h0 (Or.inr ⟨_, hstart⟩)
    rw [delete_marker hm, hrest] at h1
    simpa [assemble, gaps] using h1

/-- The text is synced exactly when it has a marker as a substring. -/
theorem isSynced_iff (text : String) : isSynced text = true ↔ HasTimestamp text.data := by
  unfold isSynced Re.MatchString
  exact timestamp_search_iff _

/-- A text with a marker is not a marker-free stretch followed by nothing. -/
theorem hasTimestamp_assemble_cons (t0 : List Char) (p : List Char × List Char)
    (ps : List (List Char × List Char)) (hp : IsTimestamp p.1) :
    HasTimestamp (assemble t0 (p :: ps)) :=
  ⟨p.1, hp, ⟨t0, p.2 ++ ps.flatMap (fun q => q.1 ++ q.2), by simp [assemble]⟩⟩

/-- The value of `lyricsValue` on `t0 m1 t1 ... mn tn`. -/
theorem lyricsValue_assemble (raw : String) (t0 : List Char)
    (ps : List (List Char × List Char)) (hraw : raw.data = assemble t0 ps)
    (h0 : ¬ HasTimestamp t0) (hps : ∀ p ∈ ps, IsTimestamp p.1 ∧ ¬ HasTimestamp p.2) :
    lyricsValue raw = String.mk (gaps t0 ps) := by
  have hdel := delete_assemble ps t0 h0 hps
  unfold lyricsValue
  by_cases hs : isSynced raw = true
  · simp only [hs, if_true, Re.ReplaceAllStringEmpty, hraw, hdel]
  · simp only [hs]
    have hno : ¬ HasTimestamp raw.data := fun h => hs ((isSynced_iff raw).2 h)
    cases ps with
    | nil =>
      have : raw.data = t0 := by simpa [assemble] using hraw
      simp [gaps, ← this]
    | cons p ps =>
      exact absurd (hraw ▸ hasTimestamp_assemble_cons t0 p ps (hps p (by simp)).1) hno

/-- Every text splits as `t0 m1 t1 ... mn tn` with markers `mi` and stretches
`ti` that contain no marker. -/
theorem exists_assemble :
    ∀ (n : Nat) (s : List Char), s.length ≤ n →
      ∃ t0 ps, s = assemble t0 ps ∧ ¬ HasTimestamp t0 ∧
        ∀ p ∈ ps, IsTimestamp p.1 ∧ ¬ HasTimestamp p.2 := by
  intro n
  induction n with
  | zero =>
    intro s hs
    have : s = [] := List.eq_nil_of_length_eq_zero (Nat.le_zero.1 hs)
    subst this
    refine ⟨[], [], by simp [assemble], ?_, by simp⟩
    rintro ⟨m, hm, ⟨a, b, hab⟩⟩
    simp at hab
    exact isTimestamp_ne_nil hm hab.2.1
  | succ n ih =>
    intro s hs
    cases s with
    | nil =>
      refine ⟨[], [], by simp [assemble], ?_, by simp⟩
      rintro ⟨m, hm, ⟨a, b, hab⟩⟩
      simp at hab
      exact isTimestamp_ne_nil hm hab.2.1
    | cons c cs =>
      by_cases hstart : ∃ m rest, IsTimestamp m ∧ c :: cs = m ++ rest
      · obtain ⟨m, rest, hm, heq⟩ := hstart
        have hlen : rest.length ≤ n := by
          have h1 := congrArg List.length heq
          have h2 : 0 < m.length := List.length_pos.2 (isTimestamp_ne_nil hm)
          simp only [List.length_cons, List.length_append] at h1 hs
          omega
        obtain ⟨t0, ps, hrest, h0, hps⟩ := ih rest hlen
        refine ⟨[], (m, t0) :: ps, ?_, ?_, ?_⟩
        · rw [heq, hrest]; simp [assemble]
        · rintro ⟨m2, hm2, ⟨a, b, hab⟩⟩
          simp at hab
          exact isTimestamp_ne_nil hm2 hab.2.1
        · intro p hp
          simp only [List.mem_cons] at hp
          rcases hp with rfl | hp
          · exact ⟨hm, h0⟩
          · exact hps p hp
      · have hlen : cs.length ≤ n := by
          simp only [List.length_cons] at hs
          omega
        obtain ⟨t0, ps, hrest, h0, hps⟩ := ih cs hlen
        refine ⟨c :: t0, ps, by rw [hrest]; simp [assemble], ?_, hps⟩
        rintro ⟨m, hm, ⟨a, b, hab⟩⟩
        cases a with
        | nil =>
          apply hstart
          refine ⟨m, b ++ ps.flatMap (fun q => q.1 ++ q.2), hm, ?_⟩
          rw [hrest]
          simp only [List.nil_append] at hab
          simp [assemble, ← List.append_assoc, hab]
        | cons x a =>
          simp at hab
          exact h0 ⟨m, hm, ⟨a, b, by simpa using hab.2⟩⟩

/-- A text without an opening bracket contains no marker. -/
theorem not_hasTimestamp_of_no_bracket {t : List Char} (h : '[' ∉ t) : ¬ HasTimestamp t := by
  rintro ⟨m, hm, ⟨a, b, hab⟩⟩
  obtain ⟨body, rfl, -⟩ := isTimestamp_shape hm
  apply h
  rw [← hab]
  simp

theorem gaps_no_bracket (ps : List (List Char × List Char)) (t0 : List Char)
    (h0 : '[' ∉ t0) (hps : ∀ p ∈ ps, '[' ∉ p.2) : '[' ∉ gaps t0 ps := by
  simp only [gaps, List.mem_append, List.mem_flatMap, not_or, not_exists, not_and]
  exact ⟨h0, fun p hp => hps p hp⟩

/-! ## The lyrics classifier and the stripping of markers -/

/-- C1, as stated, fails: the text `[0[00:00]0:00]` contains the marker
`[00:00]`, and the value produced for it is `[00:00]`, which still contains a
marker (formed by the text on both sides of the deleted one). -/
theorem C1_counterexample :
    HasTimestamp "[0[00:00]0:00]".data ∧
      lyricsValue "[0[00:00]0:00]" = "[00:00]" ∧
      HasTimestamp (lyricsValue "[0[00:00]0:00]").data :=
  ⟨(timestamp_search_iff _).1 (by decide), by decide, (timestamp_search_iff _).1 (by decide)⟩

/-- C1, amended: for every raw lyrics text that contains a marker, `isSynced`
reports true and the value is the text with its markers deleted, every stretch
of text between (before, after) the deleted markers containing no marker: the
text is `t0 m1 t1 ... mn tn` with `n ≥ 1`, markers `mi`, marker-free `ti`, and
the value is `t0 t1 ... tn`. -/
theorem C1_synced_and_stretches_clean (raw : String) (h : HasTimestamp raw.data) :
    isSynced raw = true ∧
      ∃ t0 ps, ps ≠ [] ∧ raw.data = assemble t0 ps ∧ ¬ HasTimestamp t0 ∧
        (∀ p ∈ ps, IsTimestamp p.1 ∧ ¬ HasTimestamp p.2) ∧
        lyricsValue raw = String.mk (gaps t0 ps) := by
  refine ⟨(isSynced_iff raw).2 h, ?_⟩
  obtain ⟨t0, ps, hraw, h0, hps⟩ := exists_assemble raw.data.length raw.data (Nat.le_refl _)
  refine ⟨t0, ps, ?_, hraw, h0, hps, lyricsValue_assemble raw t0 ps hraw h0 hps⟩
  rintro rfl
  apply h0
  have : raw.data = t0 := by simpa [assemble] using hraw
  exact this ▸ h

/-- C1, amended, at `[0[00:00]0:00]`. -/
theorem C1_witness :
    HasTimestamp "[0[00:00]0:00]".data ∧
      (isSynced "[0[00:00]0:00]" = true ∧
        ∃ t0 ps, ps ≠ [] ∧ "[0[00:00]0:00]".data = assemble t0 ps ∧ ¬ HasTimestamp t0 ∧
          (∀ p ∈ ps, IsTimestamp p.1 ∧ ¬ HasTimestamp p.2) ∧
          lyricsValue "[0[00:00]0:00]" = String.mk (gaps t0 ps)) :=
  ⟨(timestamp_search_iff _).1 (by decide),
    C1_synced_and_stretches_clean "[0[00:00]0:00]" ((timestamp_search_iff _).1 (by decide))⟩

/-- C2, as stated, fails: stripping `[0[00:00]0:00]` gives `[00:00]`, and
stripping that gives the empty text. -/
theorem C2_counterexample :
    lyricsValue "[0[00:00]0:00]" = "[00:00]" ∧ lyricsValue "[00:00]" = "" ∧
      lyricsValue (lyricsValue "[0[00:00]0:00]") ≠ lyricsValue "[0[00:00]0:00]" := by
  decide

/-- C2, amended: when the stripped text contains no marker, stripping it again
yields the same text; this is so for every text in which each opening bracket
starts a marker, that is every `t0 m1 t1 ... mn tn` with markers `mi` and no
`[` in any `ti`. -/
theorem C2_idempotent_when_clean :
    (∀ raw : String, ¬ HasTimestamp (lyricsValue raw).data →
      lyricsValue (lyricsValue raw) = lyricsValue raw) ∧
    (∀ (raw : String) (t0 : List Char) (ps : List (List Char × List Char)),
      raw.data = assemble t0 ps → '[' ∉ t0 → (∀ p ∈ ps, IsTimestamp p.1 ∧ '[' ∉ p.2) →
      lyricsValue (lyricsValue raw) = lyricsValue raw) := by
  have hclean : ∀ raw : String, ¬ HasTimestamp (lyricsValue raw).data →
      lyricsValue (lyricsValue raw) = lyricsValue raw := by
    intro raw h
    have hs : ¬ isSynced (lyricsValue raw) = true := fun hs => h ((isSynced_iff _).1 hs)
    generalize lyricsValue raw = v at hs ⊢
    unfold lyricsValue
    simp only [hs]
    rfl
  refine ⟨hclean, ?_⟩
  intro raw t0 ps hraw h0 hps
  apply hclean
  have hval := lyricsValue_assemble raw t0 ps hraw (not_hasTimestamp_of_no_bracket h0)
    (fun p hp => ⟨(hps p hp).1, not_hasTimestamp_of_no_bracket (hps p hp).2⟩)
  rw [hval]
  exact not_hasTimestamp_of_no_bracket (gaps_no_bracket ps t0 h0 (fun p hp => (hps p hp).2))

/-- C2, amended, at `[02:50]Hello\n[02:55]World`. -/
theorem C2_witness :
    ¬ HasTimestamp (lyricsValue "[02:50]Hello\n[02:55]World").data ∧
      lyricsValue (lyricsValue "[02:50]Hello\n[02:55]World") =
        lyricsValue "[02:50]Hello\n[02:55]World" :=
  ⟨(not_hasTimestamp_iff _).2 (by decide),
    C2_idempotent_when_clean.1 "[02:50]Hello\n[02:55]World"
      ((not_hasTimestamp_iff _).2 (by decide))⟩

/-- C3: a text is synced if and only if one of its substrings is a timestamp
marker; `[02:50]`, `[02:50.85]` and `[04:02:50.85]` are synced. -/
theorem C3_isSynced_iff_marker :
    (∀ text : String, isSynced text = true ↔ HasTimestamp text.data) ∧
      isSynced "[02:50]" = true ∧ isSynced "[02:50.85]" = true ∧
      isSynced "[04:02:50.85]" = true :=
  ⟨isSynced_iff, by decide, by decide, by decide⟩

/-- C4: for a text `t0 m1 t1 ... mn tn` with markers `mi` and marker-free
stretches `ti`, the value is `t0 t1 ... tn`; for `n = 0` the text is not synced
and the value is the raw text. -/
theorem C4_strip_deletes_exactly_markers (raw : String) (t0 : List Char)
    (ps : List (List Char × List Char)) (hraw : raw.data = assemble t0 ps)
    (h0 : ¬ HasTimestamp t0) (hps : ∀ p ∈ ps, IsTimestamp p.1 ∧ ¬ HasTimestamp p.2) :
    lyricsValue raw = String.mk (gaps t0 ps) ∧
      (ps = [] → isSynced raw = false ∧ lyricsValue raw = raw) := by
  refine ⟨lyricsValue_assemble raw t0 ps hraw h0 hps, ?_⟩
  rintro rfl
  have hdata : raw.data = t0 := by simpa [assemble] using hraw
  have hs : isSynced raw = false := by
    cases hv : isSynced raw with
    | false => rfl
    | true => exact absurd (hdata ▸ (isSynced_iff raw).1 hv) h0
  exact ⟨hs, by simp [lyricsValue, hs]⟩

/-- C4 at `[02:50]Hello\n[02:55]World`: the value is `Hello\nWorld`. -/
theorem C4_witness :
    lyricsValue "[02:50]Hello\n[02:55]World" = "Hello\nWorld" :=
  (C4_strip_deletes_exactly_markers "[02:50]Hello\n[02:55]World" []
    [("[02:50]".data, "Hello\n".data), ("[02:55]".data, "World".data)]
    (by decide)
    ((not_hasTimestamp_iff _).2 (by decide))
    (by
      intro p hp
      simp only [List.mem_cons, List.mem_singleton, List.not_mem_nil, or_false] at hp
      rcases hp with rfl | rfl
      · exact ⟨(isTimestamp_iff_run _).2 (by decide), (not_hasTimestamp_iff _).2 (by decide)⟩
      · exact ⟨(isTimestamp_iff_run _).2 (by decide), (not_hasTimestamp_iff _).2 (by decide)⟩)).1

/-! ## The avatar handler -/

/-- The placeholder path, spelled out. -/
theorem getPlaceHolderAvatar_eq (c : Env) (s : World) :
    (∀ f, c.OpenPlaceholder = .ok f →
      getPlaceHolderAvatar c s =
        (.ok none,
          { w := { s.w with body := s.w.body ++ f.data },
            events := s.events ++ [.OpenPlaceholder, .Close] })) ∧
    (∀ e, c.OpenPlaceholder = .error e →
      getPlaceHolderAvatar c s =
        (.error (newError .ErrorDataNotFound "Avatar image not found"),
          { s with events := s.events ++ [.OpenPlaceholder, .Log .Error "Image not found"] })) := by
  constructor
  · intro f hf
    simp [getPlaceHolderAvatar, hf, World.emit, World.copy]
  · intro e he
    simp [getPlaceHolderAvatar, he, World.emit]

/-- C5, as stated, fails: with the flag disabled, a request without a username
is answered with the placeholder bytes, after the placeholder asset has been
opened, and not with the missing-parameter error. -/
theorem C5_counterexample :
    (Request.mk []).params.lookup "username" = none ∧
      (GetAvatar (demoEnv false (.ok demoAsset) []) (Request.mk []) {}).1 = .ok none ∧
      (GetAvatar (demoEnv false (.ok demoAsset) []) (Request.mk []) {}).2.events =
        [.OpenPlaceholder, .Close] ∧
      (GetAvatar (demoEnv false (.ok demoAsset) []) (Request.mk []) {}).2.w.body =
        [137, 80, 78, 71] :=
  ⟨rfl, rfl, rfl, rfl⟩

/-- C5, amended: for a request without a username, with the flag enabled
`GetAvatar` returns the missing-parameter error and leaves the response and
the trace untouched (no collaborator call); with the flag disabled the flag is
tested first and `GetAvatar` takes the placeholder path: it opens the
placeholder asset and does not return the missing-parameter error. -/
theorem C5_missing_username (c : Env) (r : Request) (s : World)
    (h : r.params.lookup "username" = none) :
    (c.EnableGravatar = true →
      (∃ msg, (GetAvatar c r s).1 = .error (.subsonic .ErrorMissingParameter msg)) ∧
        (GetAvatar c r s).2 = s) ∧
    (c.EnableGravatar = false →
      GetAvatar c r s = getPlaceHolderAvatar c s ∧
        Event.OpenPlaceholder ∈ (GetAvatar c r s).2.events ∧
        ∀ msg, (GetAvatar c r s).1 ≠ .error (.subsonic .ErrorMissingParameter msg)) := by
  constructor
  · intro hflag
    simp [GetAvatar, hflag, requiredParamString, h, newError]
  · intro hflag
    have heq : GetAvatar c r s = getPlaceHolderAvatar c s := by
      simp [GetAvatar, hflag]
    refine ⟨heq, ?_, ?_⟩
    · rw [heq]
      cases hp : c.OpenPlaceholder with
      | ok f => rw [(getPlaceHolderAvatar_eq c s).1 f hp]; simp
      | error e => rw [(getPlaceHolderAvatar_eq c s).2 e hp]; simp
    · intro msg
      rw [heq]
      cases hp : c.OpenPlaceholder with
      | ok f => rw [(getPlaceHolderAvatar_eq c s).1 f hp]; simp
      | error e => rw [(getPlaceHolderAvatar_eq c s).2 e hp]; simp [newError]

/-- C5, amended, at a request without parameters, flag enabled and flag
disabled. -/
theorem C5_witness :
    (Request.mk []).params.lookup "username" = none ∧
      ((∃ msg, (GetAvatar (demoEnv true (.ok demoAsset) []) (Request.mk []) {}).1 =
          .error (.subsonic .ErrorMissingParameter msg)) ∧
        (GetAvatar (demoEnv true (.ok demoAsset) []) (Request.mk []) {}).2 = {}) ∧
      (GetAvatar (demoEnv false (.ok demoAsset) []) (Request.mk []) {} =
        getPlaceHolderAvatar (demoEnv false (.ok demoAsset) []) {}) :=
  ⟨rfl,
    (C5_missing_username (demoEnv true (.ok demoAsset) []) (Request.mk []) {} rfl).1 rfl,
    ((C5_missing_username (demoEnv false (.ok demoAsset) []) (Request.mk []) {} rfl).2 rfl).1⟩

/-- C10: for a request that carries a username, with the flag disabled
`GetAvatar` makes no user lookup and issues no redirect; it opens the
placeholder asset and either writes its bytes or, when the asset is missing,
returns the data-not-found error, whatever the user lookup would answer. -/
theorem C10_flag_disabled_placeholder (c : Env) (r : Request) (s : World) (username : String)
    (_h : r.params.lookup "username" = some username) (hflag : c.EnableGravatar = false) :
    (∀ f, c.OpenPlaceholder = .ok f →
      GetAvatar c r s =
        (.ok none,
          { w := { s.w with body := s.w.body ++ f.data },
            events := s.events ++ [.OpenPlaceholder, .Close] })) ∧
    (∀ e, c.OpenPlaceholder = .error e →
      GetAvatar c r s =
        (.error (newError .ErrorDataNotFound "Avatar image not found"),
          { s with events := s.events ++ [.OpenPlaceholder, .Log .Error "Image not found"] })) ∧
    (GetAvatar c r s).2.w.redirect = s.w.redirect ∧
    (∀ u, Event.FindByUsername u ∈ (GetAvatar c r s).2.events →
      Event.FindByUsername u ∈ s.events) := by
  have heq : GetAvatar c r s = getPlaceHolderAvatar c s := by
    simp [GetAvatar, hflag]
  rw [heq]
  refine ⟨(getPlaceHolderAvatar_eq c s).1, (getPlaceHolderAvatar_eq c s).2, ?_, ?_⟩
  · cases hp : c.OpenPlaceholder with
    | ok f => rw [(getPlaceHolderAvatar_eq c s).1 f hp]
    | error e => rw [(getPlaceHolderAvatar_eq c s).2 e hp]
  · intro u
    cases hp : c.OpenPlaceholder with
    | ok f => rw [(getPlaceHolderAvatar_eq c s).1 f hp]; simp
    | error e => rw [(getPlaceHolderAvatar_eq c s).2 e hp]; simp

/-- C10 at a request for the existing user `alice`, flag disabled, asset
present: the placeholder bytes are written, the only calls are opening and
closing the asset. -/
theorem C10_witness :
    GetAvatar (demoEnv false (.ok demoAsset) []) (Request.mk [("username", "alice")]) {} =
      (.ok none,
        { w := { body := [137, 80, 78, 71] }, events := [.OpenPlaceholder, .Close] }) :=
  (C10_flag_disabled_placeholder (demoEnv false (.ok demoAsset) [])
    (Request.mk [("username", "alice")]) {} "alice" rfl rfl).1 demoAsset rfl

/-! ## The cover-art handler -/

/-- C6: a resolver answer `model.ErrNotFound` becomes the protocol error
`ErrorDataNotFound` and nothing is written to the body; any other resolver
error is returned unchanged and nothing is written to the body; when the
resolver answers with a stream, the stream is copied to the body and the
result is the outcome of the copy. -/
theorem C6_cover_art_error_mapping (c : Env) (r : Request) (s : World) :
    (c.ArtworkGet (ParamStringDefault r "id" "non-existent") (ParamInt r "size" 0) =
        .error .ErrNotFound →
      (GetCoverArt c r s).1 = .error (.subsonic .ErrorDataNotFound "Artwork not found") ∧
        (GetCoverArt c r s).2.w.body = s.w.body) ∧
    (∀ err, err ≠ .ErrNotFound →
      c.ArtworkGet (ParamStringDefault r "id" "non-existent") (ParamInt r "size" 0) =
        .error err →
      (GetCoverArt c r s).1 = .error err ∧ (GetCoverArt c r s).2.w.body = s.w.body) ∧
    (∀ f, c.ArtworkGet (ParamStringDefault r "id" "non-existent") (ParamInt r "size" 0) =
        .ok f →
      (GetCoverArt c r s).2.w.body = s.w.body ++ f.data ∧
        (GetCoverArt c r s).1 =
          (match f.err with
            | none => .ok none
            | some err => .error err)) := by
  refine ⟨?_, ?_, ?_⟩
  · intro h
    simp [GetCoverArt, h, newError, World.emit, World.setHeader]
  · intro err hne h
    cases err with
    | ErrNotFound => exact absurd rfl hne
    | subsonic code msg => simp [GetCoverArt, h, World.emit, World.setHeader]
    | other msg => simp [GetCoverArt, h, World.emit, World.setHeader]
  · intro f h
    cases hf : f.err with
    | none => simp [GetCoverArt, h, hf, World.emit, World.setHeader, World.copy]
    | some e => simp [GetCoverArt, h, hf, World.emit, World.setHeader, World.copy]

/-- C6 on the example resolver: an unknown identifier is answered with the
data-not-found error and an empty body, the artwork `al-1` with its bytes. -/
theorem C6_witness :
    ((GetCoverArt (demoEnv true (.ok demoAsset) []) (Request.mk [("id", "zz")]) {}).1 =
        .error (.subsonic .ErrorDataNotFound "Artwork not found") ∧
      (GetCoverArt (demoEnv true (.ok demoAsset) []) (Request.mk [("id", "zz")]) {}).2.w.body =
        []) ∧
    ((GetCoverArt (demoEnv true (.ok demoAsset) []) (Request.mk [("id", "al-1")]) {}).2.w.body =
        [255, 216, 255] ∧
      (GetCoverArt (demoEnv true (.ok demoAsset) []) (Request.mk [("id", "al-1")]) {}).1 =
        .ok none) :=
  ⟨(C6_cover_art_error_mapping (demoEnv true (.ok demoAsset) [])
      (Request.mk [("id", "zz")]) {}).1 rfl,
    (C6_cover_art_error_mapping (demoEnv true (.ok demoAsset) [])
      (Request.mk [("id", "al-1")]) {}).2.2 { data := [255, 216, 255], err := none } rfl⟩

/-- C7: whatever the resolver answers, after `GetCoverArt` the response header
`cache-control` is `public, max-age=315360000`; so it is on the data-not-found
answer to a request for `id=non-existent`. -/
theorem C7_cache_control_always_set :
    (∀ (c : Env) (r : Request) (s : World),
      (GetCoverArt c r s).2.getHeader "cache-control" = some "public, max-age=315360000") ∧
    ((GetCoverArt (demoEnv true (.ok demoAsset) []) (Request.mk [("id", "non-existent")]) {}).1 =
        .error (.subsonic .ErrorDataNotFound "Artwork not found") ∧
      (GetCoverArt (demoEnv true (.ok demoAsset) [])
        (Request.mk [("id", "non-existent")]) {}).2.getHeader "cache-control" =
        some "public, max-age=315360000") := by
  refine ⟨?_, rfl, rfl⟩
  intro c r s
  cases h : c.ArtworkGet (ParamStringDefault r "id" "non-existent") (ParamInt r "size" 0) with
  | error err =>
    cases err <;> simp [GetCoverArt, h, World.getHeader, World.emit, World.setHeader]
  | ok f =>
    cases hf : f.err <;>
      simp [GetCoverArt, h, hf, World.getHeader, World.emit, World.setHeader, World.copy]

/-! ## The lyrics handler -/

/-- The value `GetLyrics` puts in its payload is `lyricsValue` of the lyrics of
the first media file. -/
theorem GetLyrics_value (c : Env) (r : Request) (s : World) (first : MediaFile)
    (rest : List MediaFile)
    (h : c.GetAll (SongsWithLyrics (ParamString r "artist") (ParamString r "title")) =
      .ok (first :: rest)) :
    (GetLyrics c r s).1 =
      .ok (some (Subsonic.mk (some (Lyrics.mk (ParamString r "artist") (ParamString r "title")
        (lyricsValue first.Lyrics))))) := by
  simp [GetLyrics, h, newResponse]

/-- C8: when the catalog answers with a non-empty list, `GetLyrics` returns a
success payload whose artist and title are the request's parameters and whose
value is computed from the lyrics of the first media file alone: its text with
the markers deleted if it is synced, its text otherwise.  Any other non-empty
answer whose first element has the same lyrics gives the same result. -/
theorem C8_first_match_and_echo (c : Env) (r : Request) (s : World) (first : MediaFile)
    (rest : List MediaFile)
    (h : c.GetAll (SongsWithLyrics (ParamString r "artist") (ParamString r "title")) =
      .ok (first :: rest)) :
    (GetLyrics c r s).1 =
        .ok (some (Subsonic.mk (some (Lyrics.mk (ParamString r "artist") (ParamString r "title")
          (if isSynced first.Lyrics = true then
            TIMESTAMP_REGEX.ReplaceAllStringEmpty first.Lyrics
          else first.Lyrics))))) ∧
      ∀ (c2 : Env) (first2 : MediaFile) (rest2 : List MediaFile),
        c2.GetAll (SongsWithLyrics (ParamString r "artist") (ParamString r "title")) =
          .ok (first2 :: rest2) →
        first2.Lyrics = first.Lyrics → (GetLyrics c2 r s).1 = (GetLyrics c r s).1 := by
  constructor
  · simp [GetLyrics, h, newResponse, lyricsValue]
  · intro c2 first2 rest2 h2 hl
    simp [GetLyrics, h, h2, hl]

/-- C8 on a catalog answer of two media files: artist and title are echoed
from the request, the value comes from the first file. -/
theorem C8_witness :
    (GetLyrics
        (demoEnv true (.ok demoAsset)
          [{ Artist := "A", Title := "T", Lyrics := "[02:50]Hello\n[02:55]World" },
            { Artist := "B", Title := "U", Lyrics := "other" }])
        (Request.mk [("artist", "a"), ("title", "t")]) {}).1 =
      .ok (some { Lyrics := some { Artist := "a", Title := "t", Value := "Hello\nWorld" } }) :=
  (C8_first_match_and_echo
    (demoEnv true (.ok demoAsset)
      [{ Artist := "A", Title := "T", Lyrics := "[02:50]Hello\n[02:55]World" },
        { Artist := "B", Title := "U", Lyrics := "other" }])
    (Request.mk [("artist", "a"), ("title", "t")]) {}
    { Artist := "A", Title := "T", Lyrics := "[02:50]Hello\n[02:55]World" }
    [{ Artist := "B", Title := "U", Lyrics := "other" }] rfl).1

/-- C9: when the catalog answers with no media file, `GetLyrics` returns no
error and a payload whose lyrics artist, title and value are empty, whatever
the request's parameters. -/
theorem C9_no_match_empty_payload (c : Env) (r : Request) (s : World)
    (h : c.GetAll (SongsWithLyrics (ParamString r "artist") (ParamString r "title")) = .ok []) :
    (GetLyrics c r s).1 =
      .ok (some { Lyrics := some { Artist := "", Title := "", Value := "" } }) := by
  simp [GetLyrics, h, newResponse]

/-- C9 at a request with non-empty artist and title. -/
theorem C9_witness :
    (GetLyrics (demoEnv true (.ok demoAsset) [])
        (Request.mk [("artist", "a"), ("title", "t")]) {}).1 =
      .ok (some { Lyrics := some { Artist := "", Title := "", Value := "" } }) :=
  C9_no_match_empty_payload (demoEnv true (.ok demoAsset) [])
    (Request.mk [("artist", "a"), ("title", "t")]) {} rfl

end MediaRetrieval
